import Mathlib

/-!
Shallow embedding of the loyalty-accounting core of
`src/app/components/TokenLoyalty.tsx`.

The component keeps its state in React `useState` hooks (`wallet`, `programs`,
`selected`, `purchaseUsd`, `balances`, `ledger`); each event handler reads the
current state and writes the next one synchronously.  We embed that state as a
`State` structure and each handler as a `State → State` function.  JavaScript
`number` arithmetic is modelled by exact rationals `ℚ`; `Math.round x` is
`⌊x + 1/2⌋` (its JS semantics); `Date.now()` and `Math.random()`-generated ids
are external inputs, so they are explicit parameters of the step functions.
A JS object `Record<string, number>` is modelled as an association list in key
insertion order (update in place for an existing key, append for a new one),
and `balances[k] || 0` as `getBal`.
-/

namespace TokenLoyalty

/-- Source `type Program` (TokenLoyalty.tsx lines 25-32). -/
structure Program where
  id : String
  name : String
  tokenSymbol : String
  fixedCentsPerPoint : ℚ
  earnRatePct : ℚ
  breakagePct : ℚ
  deriving DecidableEq

/-- Source `Wallet["network"]`: `"demo" | "eth" | "sol"`. -/
inductive Network where
  | demo
  | eth
  | sol
  deriving DecidableEq

/-- Source `type Wallet` (lines 34-37). -/
structure Wallet where
  address : String
  network : Network
  deriving DecidableEq

/-- The `"ISSUE" | "REDEEM"` tag of a ledger row. -/
inductive EntryType where
  | ISSUE
  | REDEEM
  deriving DecidableEq

/-- Source `type LedgerRow` (line 47).  `ts` is the `Date.now()` millisecond stamp. -/
structure LedgerRow where
  ts : ℕ
  type : EntryType
  programId : String
  amountPts : ℚ
  amountUsd : ℚ
  note : Option String
  deriving DecidableEq

/-- Source `DEMO_PROGRAMS` (lines 40-44). -/
def DEMO_PROGRAMS : List Program :=
  [ { id := "p1", name := "Gotham Sports Rewards", tokenSymbol := "GOTH",
      fixedCentsPerPoint := 100, earnRatePct := 5, breakagePct := 15 },
    { id := "p2", name := "Street Child Impact Cash", tokenSymbol := "IMPT",
      fixedCentsPerPoint := 100, earnRatePct := 3, breakagePct := 0 },
    { id := "p3", name := "Kraken Club Cashback", tokenSymbol := "KRAK",
      fixedCentsPerPoint := 100, earnRatePct := 4, breakagePct := 10 } ]

/-- Default used only to totalize the source's non-null assertion
`programs.find(...)!`; never reached from a reachable state (see C10). -/
def defaultProgram : Program :=
  { id := "", name := "", tokenSymbol := "",
    fixedCentsPerPoint := 0, earnRatePct := 0, breakagePct := 0 }

instance : Inhabited Program := ⟨defaultProgram⟩

/-- The whole `useState` state of the component (lines 53-58). -/
structure State where
  wallet : Option Wallet
  programs : List Program
  selected : String
  purchaseUsd : ℚ
  balances : List (String × ℚ)
  ledger : List LedgerRow
  deriving DecidableEq

/-- Lookup `balances[k] || 0` on the JS record modelled as an association list. -/
def getBal (bs : List (String × ℚ)) (k : String) : ℚ :=
  match bs.find? (fun e => e.1 == k) with
  | some e => e.2
  | none => 0

/-- Update `next[k] = v` on a copy of the JS record: overwrite an existing key in
place, append a brand-new key (JS objects keep insertion order). -/
def setBal (bs : List (String × ℚ)) (k : String) (v : ℚ) : List (String × ℚ) :=
  if bs.any (fun e => e.1 == k) then
    bs.map (fun e => if e.1 == k then (k, v) else e)
  else
    bs ++ [(k, v)]

/-- Source `activeProgram = programs.find(p => p.id === selected)!` (line 60). -/
def activeProgram (s : State) : Program :=
  (s.programs.find? (fun p => p.id == s.selected)).getD defaultProgram

/-- Source `activeBalance = balances[selected] || 0` (line 61). -/
def activeBalance (s : State) : ℚ :=
  getBal s.balances s.selected

/-- JS `Math.round`: round half toward positive infinity, i.e. `⌊x + 1/2⌋`. -/
def jsRound (x : ℚ) : ℤ :=
  ⌊x + 1 / 2⌋

/-- Source `earnValueUsd = (purchaseUsd * activeProgram.earnRatePct) / 100` (line 64). -/
def earnValueUsd (purchaseUsd : ℚ) (p : Program) : ℚ :=
  purchaseUsd * p.earnRatePct / 100

/-- Source `ptsPerDollar = 100 / activeProgram.fixedCentsPerPoint` (line 65). -/
def ptsPerDollar (p : Program) : ℚ :=
  100 / p.fixedCentsPerPoint

/-- Source `earnPts = Math.round(earnValueUsd * ptsPerDollar * 100) / 100` (line 66). -/
def earnPts (purchaseUsd : ℚ) (p : Program) : ℚ :=
  (jsRound (earnValueUsd purchaseUsd p * ptsPerDollar p * 100) : ℚ) / 100

/-- The redemption value `usd = amountPts / ptsPerDollar` (line 87). -/
def redeemValue (amountPts : ℚ) (p : Program) : ℚ :=
  amountPts / ptsPerDollar p

/-- The `note` string of an ISSUE row (line 80); the `Intl` currency
formatting of the amount is abstracted to `toString`. -/
def purchaseNote (purchaseUsd : ℚ) : String :=
  "Purchase " ++ toString purchaseUsd

/-- Source `issuePoints()` (lines 74-81).  `alert` only reports; an early return
leaves the state untouched.  `ts` is the `Date.now()` input. -/
def issuePoints (ts : ℕ) (s : State) : State :=
  match s.wallet with
  | none => s
  | some _ =>
    if s.purchaseUsd ≤ 0 then s
    else
      let pr := activeProgram s
      let pts := earnPts s.purchaseUsd pr
      { s with
        balances := setBal s.balances s.selected (getBal s.balances s.selected + pts),
        ledger :=
          { ts := ts, type := EntryType.ISSUE, programId := s.selected,
            amountPts := pts, amountUsd := earnValueUsd s.purchaseUsd pr,
            note := some (purchaseNote s.purchaseUsd) } :: s.ledger }

/-- Source `redeem(amountPts)` (lines 83-92). -/
def redeem (ts : ℕ) (amountPts : ℚ) (s : State) : State :=
  match s.wallet with
  | none => s
  | some _ =>
    if amountPts ≤ 0 then s
    else if activeBalance s < amountPts then s
    else
      { s with
        balances := setBal s.balances s.selected (activeBalance s - amountPts),
        ledger :=
          { ts := ts, type := EntryType.REDEEM, programId := s.selected,
            amountPts := amountPts,
            amountUsd := redeemValue amountPts (activeProgram s),
            note := some "Checkout (gift card / bill credit)" } :: s.ledger }

/-- Source `addProgram(p)` (lines 94-98); the random id is an explicit input. -/
def addProgram (id : String) (name tokenSymbol : String)
    (fixedCentsPerPoint earnRatePct breakagePct : ℚ) (s : State) : State :=
  { s with
    programs :=
      { id := id, name := name, tokenSymbol := tokenSymbol,
        fixedCentsPerPoint := fixedCentsPerPoint, earnRatePct := earnRatePct,
        breakagePct := breakagePct } :: s.programs,
    selected := id }

/-- The program record the create form hands to `addProgram` (line 414). -/
def clampedProgram (id : String) (name symbol : String)
    (value earn breakage : ℚ) : Program :=
  { id := id, name := name, tokenSymbol := symbol,
    fixedCentsPerPoint := max 1 value, earnRatePct := max 0 earn,
    breakagePct := max 0 breakage }

/-- The `ProgramForm` create button (lines 410-417): reject an empty name or
symbol, otherwise clamp and `addProgram`. -/
def createProgram (id : String) (name symbol : String)
    (value earn breakage : ℚ) (s : State) : State :=
  if name = "" ∨ symbol = "" then s
  else
    addProgram id name symbol (max 1 value) (max 0 earn) (max 0 breakage) s

/-- Source `resetAll()` (lines 100-106).  `purchaseUsd` is not reset. -/
def resetAll (s : State) : State :=
  { s with
    balances := [],
    ledger := [],
    programs := DEMO_PROGRAMS,
    selected := DEMO_PROGRAMS.headI.id,
    wallet := none }

/-- Source `mockConnect` (lines 69-72): the random address is an explicit input. -/
def connectWallet (w : Wallet) (s : State) : State :=
  { s with wallet := some w }

/-- The initial render state (lines 53-58): `programs[0].id` is selected and
the purchase input starts at 120. -/
def initialState : State :=
  { wallet := none, programs := DEMO_PROGRAMS, selected := DEMO_PROGRAMS.headI.id,
    purchaseUsd := 120, balances := [], ledger := [] }

/-- One UI event.  The `select` constructor carries the fact that the program
dropdown only offers ids of programs in the current list. -/
inductive Step : State → State → Prop where
  | issue (ts : ℕ) (s : State) : Step s (issuePoints ts s)
  | redeemPts (ts : ℕ) (pts : ℚ) (s : State) : Step s (redeem ts pts s)
  | create (id name symbol : String) (value earn breakage : ℚ) (s : State) :
      Step s (createProgram id name symbol value earn breakage s)
  | reset (s : State) : Step s (resetAll s)
  | connect (w : Wallet) (s : State) : Step s (connectWallet w s)
  | disconnect (s : State) : Step s { s with wallet := none }
  | setPurchase (q : ℚ) (s : State) : Step s { s with purchaseUsd := q }
  | select (id : String) (s : State) (h : id ∈ s.programs.map Program.id) :
      Step s { s with selected := id }

/-- States reachable from the initial render by UI events. -/
inductive Reachable : State → Prop where
  | init : Reachable initialState
  | step {s t : State} : Reachable s → Step s t → Reachable t

/-! ### Association-list lemmas for the balances record -/

theorem find?_setBal_same (bs : List (String × ℚ)) (k : String) (v : ℚ) :
    (setBal bs k v).find? (fun e => e.1 == k) = some (k, v) := by
  rw [setBal]
  split
  next h =>
    induction bs with
    | nil => simp at h
    | cons a t ih =>
      simp only [List.any_cons, Bool.or_eq_true] at h
      by_cases ha : a.1 == k
      · simp only [List.map_cons, if_pos ha]
        exact List.find?_cons_of_pos _ (by simp)
      · simp only [List.map_cons, if_neg ha]
        rw [List.find?_cons_of_neg _ (by simpa using ha)]
        exact ih (h.resolve_left (by simpa using ha))
  next h =>
    rw [List.find?_append]
    have h1 : bs.find? (fun e => e.1 == k) = none := by
      rw [List.find?_eq_none]
      intro x hx
      simp only [List.any_eq_true, not_exists, not_and] at h
      simpa using h x hx
    rw [h1]
    simp [List.find?]

theorem getBal_setBal_same (bs : List (String × ℚ)) (k : String) (v : ℚ) :
    getBal (setBal bs k v) k = v := by
  rw [getBal, find?_setBal_same]

theorem mem_setBal (bs : List (String × ℚ)) (k : String) (v : ℚ) :
    ∀ e ∈ setBal bs k v, e = (k, v) ∨ e ∈ bs := by
  intro e he
  rw [setBal] at he
  split at he
  · obtain ⟨a, ha, hae⟩ := List.mem_map.mp he
    by_cases h : a.1 == k
    · left
      rw [if_pos h] at hae
      exact hae.symm
    · right
      rw [if_neg h] at hae
      exact hae ▸ ha
  · rcases List.mem_append.mp he with h | h
    · right
      exact h
    · left
      simpa using h

theorem getBal_nonneg (bs : List (String × ℚ)) (h : ∀ e ∈ bs, 0 ≤ e.2)
    (k : String) : 0 ≤ getBal bs k := by
  rw [getBal]
  cases hf : bs.find? (fun e => e.1 == k) with
  | none => exact le_refl 0
  | some e => exact h e (List.mem_of_find?_eq_some hf)

/-! ### Characterizations of the event handlers -/

theorem issuePoints_of_applied {s : State} {w : Wallet} (ts : ℕ)
    (hw : s.wallet = some w) (hp : 0 < s.purchaseUsd) :
    issuePoints ts s =
      { s with
        balances := setBal s.balances s.selected
            (getBal s.balances s.selected + earnPts s.purchaseUsd (activeProgram s)),
        ledger :=
          { ts := ts, type := EntryType.ISSUE, programId := s.selected,
            amountPts := earnPts s.purchaseUsd (activeProgram s),
            amountUsd := earnValueUsd s.purchaseUsd (activeProgram s),
            note := some (purchaseNote s.purchaseUsd) } :: s.ledger } := by
  simp only [issuePoints, hw]
  rw [if_neg (not_le.mpr hp)]

theorem issuePoints_of_rejected {s : State} (ts : ℕ)
    (h : s.wallet = none ∨ s.purchaseUsd ≤ 0) :
    issuePoints ts s = s := by
  rcases h with h | h
  · simp [issuePoints, h]
  · cases hw : s.wallet with
    | none => simp [issuePoints, hw]
    | some w => simp [issuePoints, hw, if_pos h]

theorem redeem_of_applied {s : State} {w : Wallet} (ts : ℕ) (pts : ℚ)
    (hw : s.wallet = some w) (h0 : 0 < pts) (hle : pts ≤ activeBalance s) :
    redeem ts pts s =
      { s with
        balances := setBal s.balances s.selected (activeBalance s - pts),
        ledger :=
          { ts := ts, type := EntryType.REDEEM, programId := s.selected,
            amountPts := pts,
            amountUsd := redeemValue pts (activeProgram s),
            note := some "Checkout (gift card / bill credit)" } :: s.ledger } := by
  simp only [redeem, hw]
  rw [if_neg (not_le.mpr h0), if_neg (not_lt.mpr hle)]

theorem redeem_of_rejected {s : State} (ts : ℕ) (pts : ℚ)
    (h : s.wallet = none ∨ pts ≤ 0 ∨ activeBalance s < pts) :
    redeem ts pts s = s := by
  rcases h with h | h | h
  · simp [redeem, h]
  · cases hw : s.wallet with
    | none => simp [redeem, hw]
    | some w => simp [redeem, hw, if_pos h]
  · cases hw : s.wallet with
    | none => simp [redeem, hw]
    | some w =>
      simp only [redeem, hw]
      by_cases h0 : pts ≤ 0
      · rw [if_pos h0]
      · rw [if_neg h0, if_pos h]

theorem createProgram_of_applied (id name symbol : String)
    (value earn breakage : ℚ) (s : State) (hn : name ≠ "") (hs : symbol ≠ "") :
    createProgram id name symbol value earn breakage s =
      { s with
        programs := clampedProgram id name symbol value earn breakage :: s.programs,
        selected := id } := by
  rw [createProgram, if_neg (by simp [hn, hs])]
  rfl

theorem createProgram_of_rejected (id name symbol : String)
    (value earn breakage : ℚ) (s : State) (h : name = "" ∨ symbol = "") :
    createProgram id name symbol value earn breakage s = s := by
  rw [createProgram, if_pos h]

/-! ### The reachable-state invariant -/

theorem activeProgram_mem {s : State} (h : ∃ p ∈ s.programs, p.id = s.selected) :
    activeProgram s ∈ s.programs ∧ (activeProgram s).id = s.selected := by
  obtain ⟨p, hp, hid⟩ := h
  have hsome : (s.programs.find? (fun q => q.id == s.selected)).isSome :=
    List.find?_isSome.mpr ⟨p, hp, by simpa using hid⟩
  obtain ⟨q, hq⟩ := Option.isSome_iff_exists.mp hsome
  rw [activeProgram, hq]
  simp only [Option.getD_some]
  exact ⟨List.mem_of_find?_eq_some hq, by simpa using List.find?_some hq⟩

theorem earnPts_nonneg {x : ℚ} {p : Program} (hx : 0 ≤ x)
    (hr : 0 ≤ p.earnRatePct) (hf : 0 ≤ p.fixedCentsPerPoint) :
    0 ≤ earnPts x p := by
  have h1 : 0 ≤ earnValueUsd x p := by
    rw [earnValueUsd]
    exact div_nonneg (mul_nonneg hx hr) (by norm_num)
  have h2 : 0 ≤ ptsPerDollar p := by
    rw [ptsPerDollar]
    exact div_nonneg (by norm_num) hf
  have h3 : 0 ≤ earnValueUsd x p * ptsPerDollar p * 100 :=
    mul_nonneg (mul_nonneg h1 h2) (by norm_num)
  have h4 : (0 : ℤ) ≤ jsRound (earnValueUsd x p * ptsPerDollar p * 100) := by
    rw [jsRound]
    exact Int.floor_nonneg.mpr (by linarith)
  rw [earnPts]
  exact div_nonneg (by exact_mod_cast h4) (by norm_num)

/-- The invariant maintained by every UI event: the selected id and every
ledger row's program id point at a listed program, every listed program has
the clamped economics, and every stored balance is non-negative. -/
structure Inv (s : State) : Prop where
  selOK : ∃ p ∈ s.programs, p.id = s.selected
  ledgerOK : ∀ r ∈ s.ledger, ∃ p ∈ s.programs, p.id = r.programId
  progOK : ∀ p ∈ s.programs, 1 ≤ p.fixedCentsPerPoint ∧ 0 ≤ p.earnRatePct
  balOK : ∀ e ∈ s.balances, 0 ≤ e.2

theorem selOK_demo : ∃ p ∈ DEMO_PROGRAMS, p.id = DEMO_PROGRAMS.headI.id :=
  ⟨DEMO_PROGRAMS.headI, by rw [DEMO_PROGRAMS]; exact List.mem_cons_self _ _, rfl⟩

theorem progOK_demo :
    ∀ p ∈ DEMO_PROGRAMS, 1 ≤ p.fixedCentsPerPoint ∧ 0 ≤ p.earnRatePct := by
  intro p hp
  rw [DEMO_PROGRAMS] at hp
  simp only [List.mem_cons, List.not_mem_nil, or_false] at hp
  rcases hp with rfl | rfl | rfl <;> norm_num

theorem inv_initialState : Inv initialState :=
  ⟨selOK_demo, by intro r hr; simp [initialState] at hr, progOK_demo,
    by intro e he; simp [initialState] at he⟩

theorem inv_step {s t : State} (inv : Inv s) (st : Step s t) : Inv t := by
  cases st with
  | issue ts =>
    by_cases happ : s.wallet = none ∨ s.purchaseUsd ≤ 0
    · rw [issuePoints_of_rejected ts happ]
      exact inv
    · push_neg at happ
      obtain ⟨hw, hp⟩ := happ
      obtain ⟨w, hww⟩ := Option.ne_none_iff_exists'.mp hw
      rw [issuePoints_of_applied ts hww hp]
      obtain ⟨hmem, hid⟩ := activeProgram_mem inv.selOK
      have hprog := inv.progOK _ hmem
      have hpts : 0 ≤ earnPts s.purchaseUsd (activeProgram s) :=
        earnPts_nonneg (le_of_lt hp) hprog.2 (le_trans zero_le_one hprog.1)
      refine ⟨inv.selOK, ?_, inv.progOK, ?_⟩
      · intro r hr
        rcases List.mem_cons.mp hr with rfl | hr
        · exact inv.selOK
        · exact inv.ledgerOK r hr
      · intro e he
        rcases mem_setBal _ _ _ e he with rfl | he
        · have h0 : 0 ≤ getBal s.balances s.selected :=
            getBal_nonneg _ inv.balOK _
          simpa using add_nonneg h0 hpts
        · exact inv.balOK e he
  | redeemPts ts pts =>
    by_cases happ : s.wallet = none ∨ pts ≤ 0 ∨ activeBalance s < pts
    · rw [redeem_of_rejected ts pts happ]
      exact inv
    · push_neg at happ
      obtain ⟨hw, h0, hle⟩ := happ
      obtain ⟨w, hww⟩ := Option.ne_none_iff_exists'.mp hw
      rw [redeem_of_applied ts pts hww h0 hle]
      refine ⟨inv.selOK, ?_, inv.progOK, ?_⟩
      · intro r hr
        rcases List.mem_cons.mp hr with rfl | hr
        · exact inv.selOK
        · exact inv.ledgerOK r hr
      · intro e he
        rcases mem_setBal _ _ _ e he with rfl | he
        · simpa using sub_nonneg.mpr hle
        · exact inv.balOK e he
  | create id name symbol value earn breakage =>
    by_cases hrej : name = "" ∨ symbol = ""
    · rw [createProgram_of_rejected _ _ _ _ _ _ _ hrej]
      exact inv
    · push_neg at hrej
      rw [createProgram_of_applied _ _ _ _ _ _ _ hrej.1 hrej.2]
      refine ⟨⟨clampedProgram id name symbol value earn breakage,
          List.mem_cons_self _ _, rfl⟩, ?_, ?_, inv.balOK⟩
      · intro r hr
        obtain ⟨p, hp, hpid⟩ := inv.ledgerOK r hr
        exact ⟨p, List.mem_cons_of_mem _ hp, hpid⟩
      · intro p hp
        rcases List.mem_cons.mp hp with rfl | hp
        · exact ⟨le_max_left _ _, le_max_left _ _⟩
        · exact inv.progOK p hp
  | reset =>
    exact ⟨selOK_demo, by intro r hr; simp [resetAll] at hr, progOK_demo,
      by intro e he; simp [resetAll] at he⟩
  | connect w => exact ⟨inv.selOK, inv.ledgerOK, inv.progOK, inv.balOK⟩
  | disconnect => exact ⟨inv.selOK, inv.ledgerOK, inv.progOK, inv.balOK⟩
  | setPurchase q => exact ⟨inv.selOK, inv.ledgerOK, inv.progOK, inv.balOK⟩
  | select id _ h =>
    obtain ⟨p, hp, hpid⟩ := List.mem_map.mp h
    exact ⟨⟨p, hp, hpid⟩, inv.ledgerOK, inv.progOK, inv.balOK⟩

theorem reachable_inv {s : State} (h : Reachable s) : Inv s := by
  induction h with
  | init => exact inv_initialState
  | step hr st ih => exact inv_step ih st

/-! ### Further helper lemmas -/

theorem issuePoints_balances {s : State} {w : Wallet} (ts : ℕ)
    (hw : s.wallet = some w) (hp : 0 < s.purchaseUsd) :
    (issuePoints ts s).balances =
      setBal s.balances s.selected
        (getBal s.balances s.selected + earnPts s.purchaseUsd (activeProgram s)) := by
  rw [issuePoints_of_applied ts hw hp]

theorem redeem_balances {s : State} {w : Wallet} (ts : ℕ) (pts : ℚ)
    (hw : s.wallet = some w) (h0 : 0 < pts) (hle : pts ≤ activeBalance s) :
    (redeem ts pts s).balances =
      setBal s.balances s.selected (activeBalance s - pts) := by
  rw [redeem_of_applied ts pts hw h0 hle]

theorem abs_jsRound_sub (y : ℚ) : |(jsRound y : ℚ) - y| ≤ 1 / 2 := by
  rw [abs_le]
  constructor
  · have h2 : y + 1 / 2 - 1 < (jsRound y : ℚ) := by
      rw [jsRound]
      exact_mod_cast Int.sub_one_lt_floor (y + 1 / 2)
    linarith
  · have h1 : (jsRound y : ℚ) ≤ y + 1 / 2 := by
      rw [jsRound]
      exact_mod_cast Int.floor_le (y + 1 / 2)
    linarith

/-- A mock wallet for the concrete scenarios. -/
def demoWallet : Wallet := { address := "demo1f2e3d4c", network := Network.demo }

/-- The spec's worked scenario: the first seed program (fixed value 100 cents
per point, 5% earn rate) is selected, purchase input 120, wallet connected. -/
def scenarioState : State := { initialState with wallet := some demoWallet }

/-- Same program with a balance of 6 points, ready to redeem. -/
def redeemScenario : State := { scenarioState with balances := [("p1", 6)] }

/-- A reachable state with a non-empty balance: connect, then issue. -/
def issuedState : State := issuePoints 1 (connectWallet demoWallet initialState)

theorem issuedState_reachable : Reachable issuedState :=
  Reachable.step (Reachable.step Reachable.init (Step.connect demoWallet _))
    (Step.issue 1 _)

/-! ### The claims -/

/-- C1: with a wallet connected and a purchase amount > 0, `issuePoints`
increases the selected program's balance (absent keys default to 0) by exactly
`earnPts` and prepends exactly one ISSUE ledger row whose `amountPts` is
`earnPts` and whose `amountUsd` is `earnValueUsd`. -/
theorem C1_issue_updates_balance_and_ledger (ts : ℕ) (s : State) (w : Wallet)
    (hw : s.wallet = some w) (hp : 0 < s.purchaseUsd) :
    getBal (issuePoints ts s).balances s.selected
        = getBal s.balances s.selected + earnPts s.purchaseUsd (activeProgram s)
      ∧ (issuePoints ts s).ledger
        = { ts := ts, type := EntryType.ISSUE, programId := s.selected,
            amountPts := earnPts s.purchaseUsd (activeProgram s),
            amountUsd := earnValueUsd s.purchaseUsd (activeProgram s),
            note := some (purchaseNote s.purchaseUsd) } :: s.ledger := by
  rw [issuePoints_of_applied ts hw hp]
  exact ⟨getBal_setBal_same _ _ _, rfl⟩

/-- C1 witness: the spec's scenario (fixedCentsPerPoint 100, earnRatePct 5,
purchase 120, starting balance 0) gives balance 6 and an ISSUE row 6 / 6. -/
theorem C1_issue_updates_balance_and_ledger_witness :
    (0 < scenarioState.purchaseUsd
      ∧ getBal (issuePoints 17 scenarioState).balances scenarioState.selected
          = getBal scenarioState.balances scenarioState.selected
              + earnPts scenarioState.purchaseUsd (activeProgram scenarioState)
      ∧ (issuePoints 17 scenarioState).ledger
          = { ts := 17, type := EntryType.ISSUE,
              programId := scenarioState.selected,
              amountPts := earnPts scenarioState.purchaseUsd (activeProgram scenarioState),
              amountUsd := earnValueUsd scenarioState.purchaseUsd (activeProgram scenarioState),
              note := some (purchaseNote scenarioState.purchaseUsd) }
              :: scenarioState.ledger)
    ∧ getBal scenarioState.balances scenarioState.selected = 0
    ∧ earnPts scenarioState.purchaseUsd (activeProgram scenarioState) = 6
    ∧ earnValueUsd scenarioState.purchaseUsd (activeProgram scenarioState) = 6 := by
  refine ⟨?_, ?_, ?_, ?_⟩
  · refine ⟨by norm_num [scenarioState, initialState],
      C1_issue_updates_balance_and_ledger 17 scenarioState demoWallet rfl
        (by norm_num [scenarioState, initialState])⟩
  · simp [scenarioState, initialState, getBal]
  · norm_num [scenarioState, initialState, earnPts, earnValueUsd, ptsPerDollar,
      jsRound, activeProgram, DEMO_PROGRAMS, List.find?]
  · norm_num [scenarioState, initialState, earnValueUsd, activeProgram,
      DEMO_PROGRAMS, List.find?]

/-- C2: any precondition violation (no wallet; non-positive purchase or
points; points above the selected balance for redeem) leaves the state, in
particular balances and ledger, exactly unchanged. -/
theorem C2_rejected_ops_do_not_mutate (ts : ℕ) (pts : ℚ) (s : State) :
    ((s.wallet = none ∨ s.purchaseUsd ≤ 0) → issuePoints ts s = s)
    ∧ ((s.wallet = none ∨ pts ≤ 0 ∨ activeBalance s < pts) → redeem ts pts s = s) :=
  ⟨issuePoints_of_rejected ts, redeem_of_rejected ts pts⟩

/-- C2 witness: with no wallet connected neither operation mutates the
initial state. -/
theorem C2_rejected_ops_do_not_mutate_witness :
    initialState.wallet = none
    ∧ issuePoints 3 initialState = initialState
    ∧ redeem 3 1 initialState = initialState :=
  ⟨rfl, (C2_rejected_ops_do_not_mutate 3 1 initialState).1 (Or.inl rfl),
    (C2_rejected_ops_do_not_mutate 3 1 initialState).2 (Or.inl rfl)⟩

/-- C3: with a wallet connected and 0 < pts ≤ balance of the selected
program, `redeem` decreases that balance by exactly pts and prepends exactly
one REDEEM row with `amountPts = pts` and
`amountUsd = pts / (100 / fixedCentsPerPoint)`. -/
theorem C3_redeem_updates_balance_and_ledger (ts : ℕ) (pts : ℚ) (s : State)
    (w : Wallet) (hw : s.wallet = some w) (h0 : 0 < pts)
    (hle : pts ≤ getBal s.balances s.selected) :
    getBal (redeem ts pts s).balances s.selected
        = getBal s.balances s.selected - pts
      ∧ (redeem ts pts s).ledger
        = { ts := ts, type := EntryType.REDEEM, programId := s.selected,
            amountPts := pts,
            amountUsd := pts / (100 / (activeProgram s).fixedCentsPerPoint),
            note := some "Checkout (gift card / bill credit)" } :: s.ledger := by
  rw [redeem_of_applied ts pts hw h0 hle]
  exact ⟨getBal_setBal_same _ _ _, rfl⟩

/-- C3 witness: redeeming 6 points from a balance of 6 on the first seed
program empties the balance and records a REDEEM row worth 6 dollars. -/
theorem C3_redeem_updates_balance_and_ledger_witness :
    ((0 : ℚ) < 6
      ∧ (6 : ℚ) ≤ getBal redeemScenario.balances redeemScenario.selected
      ∧ getBal (redeem 99 6 redeemScenario).balances redeemScenario.selected
          = getBal redeemScenario.balances redeemScenario.selected - 6
      ∧ (redeem 99 6 redeemScenario).ledger
        = { ts := 99, type := EntryType.REDEEM,
            programId := redeemScenario.selected, amountPts := 6,
            amountUsd := 6 / (100 / (activeProgram redeemScenario).fixedCentsPerPoint),
            note := some "Checkout (gift card / bill credit)" }
            :: redeemScenario.ledger)
    ∧ getBal redeemScenario.balances redeemScenario.selected = 6
    ∧ (6 : ℚ) / (100 / (activeProgram redeemScenario).fixedCentsPerPoint) = 6 := by
  have h6 : getBal redeemScenario.balances redeemScenario.selected = 6 := by
    simp [redeemScenario, scenarioState, initialState, getBal, DEMO_PROGRAMS,
      List.find?]
  refine ⟨⟨by norm_num, by rw [h6], ?_⟩, h6, ?_⟩
  · exact C3_redeem_updates_balance_and_ledger 99 6 redeemScenario demoWallet
      rfl (by norm_num) (by rw [h6])
  · norm_num [redeemScenario, scenarioState, initialState, activeProgram,
      DEMO_PROGRAMS, List.find?]

/-- C4: redeeming back the points earned on a purchase returns the earned
value up to the 2-decimal rounding of `earnPts`: the error is at most the
value of half a hundredth of a point, `fixedCentsPerPoint / 20000` dollars. -/
theorem C4_issue_redeem_roundtrip (x : ℚ) (p : Program)
    (h : 0 < p.fixedCentsPerPoint) :
    |redeemValue (earnPts x p) p - earnValueUsd x p|
      ≤ p.fixedCentsPerPoint / 20000 := by
  have hf : p.fixedCentsPerPoint ≠ 0 := ne_of_gt h
  have hppd : 0 < ptsPerDollar p := by
    rw [ptsPerDollar]
    positivity
  have hne : ptsPerDollar p ≠ 0 := ne_of_gt hppd
  have expand : redeemValue (earnPts x p) p - earnValueUsd x p
      = ((jsRound (earnValueUsd x p * ptsPerDollar p * 100) : ℚ)
          - earnValueUsd x p * ptsPerDollar p * 100)
        / (100 * ptsPerDollar p) := by
    rw [redeemValue, earnPts]
    field_simp
    ring
  rw [expand, abs_div, abs_of_pos (by positivity : (0 : ℚ) < 100 * ptsPerDollar p)]
  have hb := abs_jsRound_sub (earnValueUsd x p * ptsPerDollar p * 100)
  calc |(jsRound (earnValueUsd x p * ptsPerDollar p * 100) : ℚ)
          - earnValueUsd x p * ptsPerDollar p * 100| / (100 * ptsPerDollar p)
      ≤ (1 / 2) / (100 * ptsPerDollar p) := by
        exact div_le_div_of_nonneg_right hb (by positivity) |>.trans_eq rfl
    _ = p.fixedCentsPerPoint / 20000 := by
        rw [ptsPerDollar]
        rw [div_eq_div_iff (by positivity) (by norm_num)]
        field_simp
        norm_num

/-- C4 witness: on the first seed program and purchase 120 the round trip is
exact, and the bound is 100 / 20000 dollars. -/
theorem C4_issue_redeem_roundtrip_witness :
    (0 : ℚ) < (DEMO_PROGRAMS.headI).fixedCentsPerPoint
    ∧ |redeemValue (earnPts 120 DEMO_PROGRAMS.headI) DEMO_PROGRAMS.headI
        - earnValueUsd 120 DEMO_PROGRAMS.headI|
      ≤ (DEMO_PROGRAMS.headI).fixedCentsPerPoint / 20000 :=
  ⟨by norm_num [DEMO_PROGRAMS],
    C4_issue_redeem_roundtrip 120 DEMO_PROGRAMS.headI (by norm_num [DEMO_PROGRAMS])⟩

/-- C5: starting from balance 0 with a wallet connected, issuing (which
credits `earnPts` = pts1) and then redeeming pts2 with 0 < pts2 ≤ pts1 leaves
the selected program's balance at pts1 - pts2. -/
theorem C5_balance_conservation (ts1 ts2 : ℕ) (pts2 : ℚ) (s : State)
    (w : Wallet) (hw : s.wallet = some w)
    (hb : getBal s.balances s.selected = 0) (hp : 0 < s.purchaseUsd)
    (h2 : 0 < pts2)
    (hle : pts2 ≤ earnPts s.purchaseUsd (activeProgram s)) :
    getBal (redeem ts2 pts2 (issuePoints ts1 s)).balances s.selected
      = earnPts s.purchaseUsd (activeProgram s) - pts2 := by
  have h1w : (issuePoints ts1 s).wallet = some w := by
    rw [issuePoints_of_applied ts1 hw hp]
    exact hw
  have h1sel : (issuePoints ts1 s).selected = s.selected := by
    rw [issuePoints_of_applied ts1 hw hp]
  have hbal1 : activeBalance (issuePoints ts1 s)
      = earnPts s.purchaseUsd (activeProgram s) := by
    rw [activeBalance, h1sel, issuePoints_balances ts1 hw hp,
      getBal_setBal_same, hb, zero_add]
  rw [redeem_balances ts2 pts2 h1w h2 (by rw [hbal1]; exact hle), h1sel, hbal1,
    getBal_setBal_same]

/-- C5 witness: in the spec scenario pts1 = 6; issuing then redeeming 2
points leaves balance 6 - 2. -/
theorem C5_balance_conservation_witness :
    (getBal scenarioState.balances scenarioState.selected = 0
      ∧ 0 < scenarioState.purchaseUsd ∧ (0 : ℚ) < 2
      ∧ (2 : ℚ) ≤ earnPts scenarioState.purchaseUsd (activeProgram scenarioState))
    ∧ getBal (redeem 2 2 (issuePoints 1 scenarioState)).balances
          scenarioState.selected
        = earnPts scenarioState.purchaseUsd (activeProgram scenarioState) - 2 := by
  have hb : getBal scenarioState.balances scenarioState.selected = 0 := by
    simp [scenarioState, initialState, getBal]
  have hpts : earnPts scenarioState.purchaseUsd (activeProgram scenarioState) = 6 := by
    norm_num [scenarioState, initialState, earnPts, earnValueUsd, ptsPerDollar,
      jsRound, activeProgram, DEMO_PROGRAMS, List.find?]
  refine ⟨⟨hb, by norm_num [scenarioState, initialState], by norm_num, ?_⟩, ?_⟩
  · rw [hpts]
    norm_num
  · exact C5_balance_conservation 1 2 2 scenarioState demoWallet rfl hb
      (by norm_num [scenarioState, initialState]) (by norm_num)
      (by rw [hpts]; norm_num)

/-- C6: in every reachable state every stored balance entry is non-negative,
hence every looked-up balance (defaulting to 0) is non-negative. -/
theorem C6_balances_nonneg {s : State} (h : Reachable s) :
    (∀ e ∈ s.balances, 0 ≤ e.2) ∧ ∀ k : String, 0 ≤ getBal s.balances k :=
  ⟨(reachable_inv h).balOK, fun k => getBal_nonneg _ (reachable_inv h).balOK k⟩

/-- C6 witness: the state reached by connecting a wallet and issuing once has
only non-negative balances. -/
theorem C6_balances_nonneg_witness :
    Reachable issuedState
    ∧ ((∀ e ∈ issuedState.balances, 0 ≤ e.2)
        ∧ ∀ k : String, 0 ≤ getBal issuedState.balances k) :=
  ⟨issuedState_reachable, C6_balances_nonneg issuedState_reachable⟩

/-- C7: creation is rejected (state unchanged) on an empty name or symbol;
otherwise the stored program is the clamped record, with
fixedCentsPerPoint ≥ 1, earnRatePct ≥ 0 and breakagePct ≥ 0 whatever numbers
were supplied. -/
theorem C7_create_validates_and_clamps (id name symbol : String)
    (value earn breakage : ℚ) (s : State) :
    (name = "" ∨ symbol = "" →
        createProgram id name symbol value earn breakage s = s)
    ∧ (name ≠ "" → symbol ≠ "" →
        (createProgram id name symbol value earn breakage s).programs
            = clampedProgram id name symbol value earn breakage :: s.programs
        ∧ 1 ≤ (clampedProgram id name symbol value earn breakage).fixedCentsPerPoint
        ∧ 0 ≤ (clampedProgram id name symbol value earn breakage).earnRatePct
        ∧ 0 ≤ (clampedProgram id name symbol value earn breakage).breakagePct) := by
  constructor
  · exact createProgram_of_rejected id name symbol value earn breakage s
  · intro hn hs
    refine ⟨?_, le_max_left _ _, le_max_left _ _, le_max_left _ _⟩
    rw [createProgram_of_applied id name symbol value earn breakage s hn hs]

/-- C7 witness: an empty name is rejected; negative economics are clamped. -/
theorem C7_create_validates_and_clamps_witness :
    createProgram "px0aa" "" "SYM" 7 (-3) (-4) initialState = initialState
    ∧ ((createProgram "px1bb" "Boardwalk Perks" "BDWK" (-7) (-3) (-4)
          initialState).programs
        = clampedProgram "px1bb" "Boardwalk Perks" "BDWK" (-7) (-3) (-4)
            :: initialState.programs
      ∧ 1 ≤ (clampedProgram "px1bb" "Boardwalk Perks" "BDWK" (-7) (-3) (-4)).fixedCentsPerPoint
      ∧ 0 ≤ (clampedProgram "px1bb" "Boardwalk Perks" "BDWK" (-7) (-3) (-4)).earnRatePct
      ∧ 0 ≤ (clampedProgram "px1bb" "Boardwalk Perks" "BDWK" (-7) (-3) (-4)).breakagePct) :=
  ⟨(C7_create_validates_and_clamps "px0aa" "" "SYM" 7 (-3) (-4) initialState).1
      (Or.inl rfl),
    (C7_create_validates_and_clamps "px1bb" "Boardwalk Perks" "BDWK" (-7) (-3)
        (-4) initialState).2 (by decide) (by decide)⟩

/-- C8 counterexample: `addProgram` never checks the generated id against the
registry, so creating twice with the same random id stores a second program
whose id already belongs to an existing program: the new id is not fresh. -/
def collidingState : State :=
  createProgram "pabcde" "Boardwalk Perks" "BDWK" 100 5 10 initialState

/-- C8 counterexample: after a second create reusing the id "pabcde", the
newly stored program's id is already the id of a program in the registry,
refuting freshness of the assigned id. -/
theorem C8_counterexample_id_not_fresh :
    (createProgram "pabcde" "Arcade Perks" "ARCD" 100 5 10
        collidingState).programs.headI.id
      ∈ collidingState.programs.map Program.id := by
  simp [collidingState, createProgram, addProgram, initialState, DEMO_PROGRAMS,
    clampedProgram]

/-- C8 (amended): a successful create stores a program carrying exactly the
generated id, selects it, and prepends it (existing programs keep their
relative order); the id is distinct from all existing ids whenever the
generated id does not already occur in the registry — which the code does not
check. -/
theorem C8_create_prepends_and_selects (id name symbol : String)
    (value earn breakage : ℚ) (s : State) (hn : name ≠ "") (hs : symbol ≠ "") :
    (createProgram id name symbol value earn breakage s).programs
        = clampedProgram id name symbol value earn breakage :: s.programs
    ∧ (createProgram id name symbol value earn breakage s).selected = id
    ∧ (clampedProgram id name symbol value earn breakage).id = id
    ∧ (id ∉ s.programs.map Program.id →
        ∀ q ∈ s.programs,
          (clampedProgram id name symbol value earn breakage).id ≠ q.id) := by
  refine ⟨?_, ?_, rfl, ?_⟩
  · rw [createProgram_of_applied id name symbol value earn breakage s hn hs]
  · rw [createProgram_of_applied id name symbol value earn breakage s hn hs]
  · intro hfresh q hq heq
    exact hfresh (List.mem_map.mpr ⟨q, hq, heq.symm⟩)

/-- C8 witness: creating with an unused id on the seed registry prepends,
selects, and is fresh. -/
theorem C8_create_prepends_and_selects_witness :
    ((createProgram "pk3j9x" "Boardwalk Perks" "BDWK" 100 5 10
          initialState).programs
        = clampedProgram "pk3j9x" "Boardwalk Perks" "BDWK" 100 5 10
            :: initialState.programs
      ∧ (createProgram "pk3j9x" "Boardwalk Perks" "BDWK" 100 5 10
            initialState).selected = "pk3j9x"
      ∧ (clampedProgram "pk3j9x" "Boardwalk Perks" "BDWK" 100 5 10).id = "pk3j9x"
      ∧ ("pk3j9x" ∉ initialState.programs.map Program.id →
          ∀ q ∈ initialState.programs,
            (clampedProgram "pk3j9x" "Boardwalk Perks" "BDWK" 100 5 10).id ≠ q.id)) :=
  C8_create_prepends_and_selects "pk3j9x" "Boardwalk Perks" "BDWK" 100 5 10
    initialState (by decide) (by decide)

/-- C9: from any state, `resetAll` restores exactly the three seed programs
in order, selects the first seed, and empties balances and ledger. -/
theorem C9_reset_restores_seeds (s : State) :
    (resetAll s).programs = DEMO_PROGRAMS
    ∧ (resetAll s).programs.map Program.name
        = ["Gotham Sports Rewards", "Street Child Impact Cash",
           "Kraken Club Cashback"]
    ∧ (resetAll s).selected = DEMO_PROGRAMS.headI.id
    ∧ (resetAll s).selected = "p1"
    ∧ (resetAll s).balances = []
    ∧ (resetAll s).ledger = [] :=
  ⟨rfl, rfl, rfl, rfl, rfl, rfl⟩

/-- C10: in every reachable state the selected id and the program id of every
ledger row are found by `programs.find?`, so the source's non-null assertions
on `programs.find` cannot fail. -/
theorem C10_referential_integrity {s : State} (h : Reachable s) :
    (s.programs.find? (fun p => p.id == s.selected)).isSome
    ∧ ∀ r ∈ s.ledger,
        (s.programs.find? (fun p => p.id == r.programId)).isSome := by
  have inv := reachable_inv h
  constructor
  · obtain ⟨p, hp, hid⟩ := inv.selOK
    exact List.find?_isSome.mpr ⟨p, hp, by simpa using hid⟩
  · intro r hr
    obtain ⟨p, hp, hid⟩ := inv.ledgerOK r hr
    exact List.find?_isSome.mpr ⟨p, hp, by simpa using hid⟩

/-- C10 witness: the lookups succeed in the reachable state with one issued
ledger row. -/
theorem C10_referential_integrity_witness :
    Reachable issuedState
    ∧ ((issuedState.programs.find? (fun p => p.id == issuedState.selected)).isSome
        ∧ ∀ r ∈ issuedState.ledger,
            (issuedState.programs.find? (fun p => p.id == r.programId)).isSome) :=
  ⟨issuedState_reachable, C10_referential_integrity issuedState_reachable⟩

end TokenLoyalty
